import Mathlib

/-!
Shallow embedding of the rag-chatbot-backend repository (JavaScript) and
proofs about it.

Conventions of the embedding:
* External services (Redis, Qdrant, the Jina embedding API, the Gemini
  generation API, the RSS parser, cheerio) are modelled by explicit state
  records or by outcome parameters passed to the embedded functions; the
  repository code itself is translated statement by statement.
* JavaScript strings are Lean `String`s; JS string truthiness (a string is
  falsy iff empty) is `truthy` below; `a || b` on optional string fields is
  `jsOr`; `s.substring(0, n)` is `jsSubstring`.
* Wall-clock effects (TTL expiry, `new Date().toISOString()`, `setTimeout`
  sleeps) are modelled by explicit `now` parameters and, for the retry
  backoff, by recording the requested sleep durations.
* A JS function that can `throw` is embedded with `Except String` results;
  a function that cannot throw is total.
-/

namespace RagBackend

/-- JS string truthiness: a string is truthy iff it is non-empty. -/
def truthy (s : String) : Bool := !s.isEmpty

/-- JS `a || b` where `a` is a possibly-absent string field:
`undefined` and the empty string both fall through to `b`. -/
def jsOr (a : Option String) (b : String) : String :=
  match a with
  | some s => if truthy s then s else b
  | none => b

/-- JS `s.substring(0, n)` (count in characters). -/
def jsSubstring (s : String) (n : Nat) : String :=
  String.mk (s.data.take n)

/-- JS `s.trim()`: strip leading and trailing whitespace (modelled with
`Char.isWhitespace`, which covers the ASCII whitespace the feeds and the
tests exercise). Defined over the character list so that it evaluates by
kernel reduction. -/
def jsTrim (s : String) : String :=
  String.mk
    (((s.data.dropWhile Char.isWhitespace).reverse.dropWhile Char.isWhitespace).reverse)

/-! ## Session Cache (src/services/redisService.js)

Redis is modelled as two key-value maps: `history` (Redis lists, head =
most recently pushed element, missing key = empty list, which is exactly
Redis list semantics) and `session` (Redis strings, missing key = `none`).
TTLs only govern expiry, i.e. when a key reverts to the missing state, so
they are not carried in the state. -/

/-- A chat message as stored by the chat endpoint. -/
structure ChatMessage where
  user : String
  bot : String
  timestamp : String
deriving Repr, DecidableEq

/-- The observable Redis state used by RedisService. -/
structure RedisState where
  history : String → List ChatMessage
  session : String → Option String

/-- Redis state with no keys (also the state a session reaches after
its TTL has lapsed). -/
def RedisState.empty : RedisState :=
  { history := fun _ => [], session := fun _ => none }

/-- Embeds `getSessionKey` from redisService.js. -/
def getSessionKey (sessionId : String) : String :=
  "session:" ++ sessionId

/-- Embeds `getHistoryKey` from redisService.js. -/
def getHistoryKey (sessionId : String) : String :=
  "history:" ++ sessionId

/-- Embeds `RedisService.addMessage`: `lPush` the message onto the history list
(new head), refresh the history TTL, and `set` the session key to the
current timestamp (`now` models `new Date().toISOString()`). -/
def addMessage (sessionId : String) (messageData : ChatMessage) (now : String)
    (s : RedisState) : RedisState :=
  { history := fun k =>
      if k = getHistoryKey sessionId then messageData :: s.history k else s.history k,
    session := fun k =>
      if k = getSessionKey sessionId then some now else s.session k }

/-- Embeds `RedisService.getHistory`: `lRange(key, 0, -1)` returns the whole list
(empty when the key is missing or expired), which is then reversed into
chronological order. Total: no error path is reachable in the model. -/
def getHistory (sessionId : String) (s : RedisState) : List ChatMessage :=
  ((s.history (getHistoryKey sessionId)).reverse)

/-- Appending a sequence of messages in order via `addMessage`. -/
def appendAll (sessionId : String) (msgs : List ChatMessage) (now : String)
    (s : RedisState) : RedisState :=
  msgs.foldl (fun st m => addMessage sessionId m now st) s

theorem appendAll_history (sessionId : String) (msgs : List ChatMessage)
    (now : String) (s : RedisState) :
    (appendAll sessionId msgs now s).history (getHistoryKey sessionId) =
      msgs.reverse ++ s.history (getHistoryKey sessionId) := by
  induction msgs generalizing s with
  | nil => simp [appendAll]
  | cons m rest ih =>
    simp only [appendAll, List.foldl_cons, List.reverse_cons, List.append_assoc]
    have := ih (addMessage sessionId m now s)
    simp only [appendAll] at this
    rw [this]
    simp [addMessage]

/-- C2: For every session and every sequence of messages appended via
`addMessage`, the history list is stored most-recent-first internally
(each append pushes at the head, so the internal list is the reverse of
the appended sequence in front of the old list), and `getHistory` returns
the messages in chronological oldest-first order, i.e. exactly the order
in which they were appended. -/
theorem history_round_trip (sessionId : String) (msgs : List ChatMessage)
    (now : String) (s : RedisState) :
    (appendAll sessionId msgs now s).history (getHistoryKey sessionId) =
      msgs.reverse ++ s.history (getHistoryKey sessionId) ∧
    getHistory sessionId (appendAll sessionId msgs now s) =
      getHistory sessionId s ++ msgs := by
  refine ⟨appendAll_history sessionId msgs now s, ?_⟩
  simp [getHistory, appendAll_history sessionId msgs now s]

/-- C9: `getHistory` called on a sessionId whose session never existed or
has expired (its history key is absent, i.e. the empty list in Redis
semantics) returns an empty list; the function is total, so no error is
raised. -/
theorem getHistory_absent (sessionId : String) (s : RedisState)
    (h : s.history (getHistoryKey sessionId) = []) :
    getHistory sessionId s = [] := by
  simp [getHistory, h]

/-- Witness for C9 at the empty Redis state. -/
theorem getHistory_absent_witness :
    getHistory "abc" RedisState.empty = [] :=
  getHistory_absent "abc" RedisState.empty rfl

/-! ## Generation Client (src/services/geminiService.js)

The Gemini HTTP call is modelled by its outcome: either the transport threw
(`transportError`), or a response arrived and the optional chain
`response.data?.candidates?.[0]?.content?.parts?.[0]?.text` extracted
`textField : Option String` (`none` covers a malformed shape and a safety
block, both of which leave no candidate text). -/

inductive GenApiOutcome where
  | transportError
  | response (textField : Option String)
deriving Repr, DecidableEq

/-- The fixed fallback apology string of `generateResponse`. -/
def fallbackMessage : String :=
  "I apologize, but I\x27m having trouble processing your request right now. Please try again or rephrase your question."

/-- Embeds `GeminiService.buildRAGPrompt`: the fixed prompt template. -/
def buildRAGPrompt (userQuery context : String) : String :=
  "You are a helpful news chatbot assistant. Answer the user\x27s question based on the provided news context. If the context doesn\x27t contain relevant information, politely say so and provide a general response if possible.\n\nContext from recent news articles:\n"
    ++ context
    ++ "\n\nUser Question: " ++ userQuery
    ++ "\n\nInstructions:\n- Base your answer primarily on the provided context\n- Be concise and informative\n- If the context doesn\x27t contain relevant information, acknowledge this\n- Maintain a friendly and professional tone\n- Cite specific details from the articles when relevant\n\nResponse:"

/-- Embeds `GeminiService.generateResponse`: if the extracted candidate text is
truthy it is returned trimmed; otherwise the code throws
`Invalid response format`, and every throw inside the `try` (transport
error included) is caught and replaced by the fixed fallback string.
The function is total: it never propagates an error. -/
def generateResponse (outcome : GenApiOutcome) : String :=
  match outcome with
  | .transportError => fallbackMessage
  | .response textField =>
    match textField with
    | some text => if truthy text then jsTrim text else fallbackMessage
    | none => fallbackMessage

/-- A generation call that failed: the transport threw, the response shape
carried no candidate text (malformed response or safety block), or the
candidate text was the empty string (falsy in JS). -/
def genFails (outcome : GenApiOutcome) : Bool :=
  match outcome with
  | .transportError => true
  | .response textField =>
    match textField with
    | some text => !truthy text
    | none => true

/-! ## Chat endpoint (POST /api/chat, src/unnamed/part_000)

The three external calls before the Redis write are modelled by their
outcomes: `embedOutcome` for `embeddingService.embedText(message)`,
`searchOutcome` for `qdrantService.search(queryEmbedding, 5)` (only the
`payload.content` of each hit is consumed), `genOutcome` for the Gemini
HTTP exchange, and `cacheOk` for whether `redisService.addMessage`
succeeds. `now` models `new Date().toISOString()`. The handler also
reports how many times each external service was invoked. -/

structure SearchHit where
  content : String
deriving Repr, DecidableEq

structure ChatEnv where
  embedOutcome : Except String (List Int)
  searchOutcome : Except String (List SearchHit)
  genOutcome : GenApiOutcome
  cacheOk : Bool
  now : String

structure ChatCalls where
  embed : Nat := 0
  search : Nat := 0
  generate : Nat := 0
  cache : Nat := 0
deriving Repr, DecidableEq

inductive ChatResponse where
  | ok (response : String) (sessionId : String)
  | badRequest (error : String)
  | serverError (error : String)
deriving Repr, DecidableEq

/-- HTTP status code of each handler outcome. -/
def ChatResponse.status : ChatResponse → Nat
  | .ok _ _ => 200
  | .badRequest _ => 400
  | .serverError _ => 500

/-- The `POST /api/chat` handler. `!sessionId || !message` is JS string
truthiness, so an empty-string field is rejected exactly like an absent
one; any throw from embedding, search or the Redis write lands in the
outer catch and produces the 500 response; `generateResponse` cannot
throw. -/
def chatHandler (env : ChatEnv) (sessionId message : String)
    (rs : RedisState) : ChatResponse × RedisState × ChatCalls :=
  if !truthy sessionId || !truthy message then
    (.badRequest "Session ID and message are required", rs, {})
  else
    match env.embedOutcome with
    | .error _ => (.serverError "Failed to process message", rs, { embed := 1 })
    | .ok _queryEmbedding =>
      match env.searchOutcome with
      | .error _ =>
        (.serverError "Failed to process message", rs, { embed := 1, search := 1 })
      | .ok relevantDocs =>
        let _context := String.intercalate "\n\n" (relevantDocs.map (fun doc => doc.content))
        let response := generateResponse env.genOutcome
        if env.cacheOk then
          (.ok response sessionId,
           addMessage sessionId
             { user := message, bot := response, timestamp := env.now } env.now rs,
           { embed := 1, search := 1, generate := 1, cache := 1 })
        else
          (.serverError "Failed to process message", rs,
           { embed := 1, search := 1, generate := 1, cache := 1 })

/-- C1: whenever the generation call fails for any reason (transport error,
malformed response, safety block), `generateResponse` returns the fixed
apology string instead of raising, the chat endpoint (with the other
external calls succeeding) still answers HTTP 200 carrying that fallback
text, and the fallback text is stored in the session history as the bot
message of the newly appended entry. -/
theorem chat_generation_failsoft (env : ChatEnv) (sessionId message : String)
    (rs : RedisState) (v : List Int) (hits : List SearchHit)
    (hs : truthy sessionId = true) (hm : truthy message = true)
    (he : env.embedOutcome = .ok v) (hq : env.searchOutcome = .ok hits)
    (hc : env.cacheOk = true) (hg : genFails env.genOutcome = true) :
    generateResponse env.genOutcome = fallbackMessage ∧
    (chatHandler env sessionId message rs).1 = .ok fallbackMessage sessionId ∧
    (chatHandler env sessionId message rs).1.status = 200 ∧
    getHistory sessionId (chatHandler env sessionId message rs).2.1 =
      getHistory sessionId rs ++
        [{ user := message, bot := fallbackMessage, timestamp := env.now }] := by
  have hgen : generateResponse env.genOutcome = fallbackMessage := by
    cases hout : env.genOutcome with
    | transportError => rfl
    | response textField =>
      cases textField with
      | none => rfl
      | some text =>
        simp only [genFails, hout] at hg
        have htr : truthy text = false := by simpa using hg
        simp [generateResponse, htr]
  have hcond : (!truthy sessionId || !truthy message) = false := by
    simp [hs, hm]
  refine ⟨hgen, ?_, ?_, ?_⟩ <;>
    simp [chatHandler, hcond, he, hq, hc, hgen, ChatResponse.status,
      getHistory, addMessage]

/-- Witness for C1: a concrete environment where the transport throws. -/
theorem chat_generation_failsoft_witness :
    generateResponse GenApiOutcome.transportError = fallbackMessage ∧
    (chatHandler
        { embedOutcome := .ok [1], searchOutcome := .ok [],
          genOutcome := .transportError, cacheOk := true, now := "t0" }
        "sid" "hello" RedisState.empty).1 = .ok fallbackMessage "sid" ∧
    (chatHandler
        { embedOutcome := .ok [1], searchOutcome := .ok [],
          genOutcome := .transportError, cacheOk := true, now := "t0" }
        "sid" "hello" RedisState.empty).1.status = 200 ∧
    getHistory "sid"
        (chatHandler
          { embedOutcome := .ok [1], searchOutcome := .ok [],
            genOutcome := .transportError, cacheOk := true, now := "t0" }
          "sid" "hello" RedisState.empty).2.1 =
      getHistory "sid" RedisState.empty ++
        [{ user := "hello", bot := fallbackMessage, timestamp := "t0" }] :=
  chat_generation_failsoft
    { embedOutcome := .ok [1], searchOutcome := .ok [],
      genOutcome := .transportError, cacheOk := true, now := "t0" }
    "sid" "hello" RedisState.empty [1] []
    (by decide) (by decide) rfl rfl rfl rfl

/-- C10: a chat request whose body has an empty-string `message` or an
empty-string `sessionId` is rejected with a 400 error and no embedding,
search, generation, or cache call is made: presence is tested by JS
truthiness, which does not distinguish an empty-string field from an
absent one. -/
theorem chat_empty_field_rejected (env : ChatEnv) (sessionId message : String)
    (rs : RedisState) (h : sessionId = "" ∨ message = "") :
    (chatHandler env sessionId message rs).1 =
      .badRequest "Session ID and message are required" ∧
    (chatHandler env sessionId message rs).1.status = 400 ∧
    (chatHandler env sessionId message rs).2.1 = rs ∧
    (chatHandler env sessionId message rs).2.2 =
      { embed := 0, search := 0, generate := 0, cache := 0 } := by
  have hfalse : (!truthy sessionId || !truthy message) = true := by
    rcases h with h | h <;> subst h <;> simp [truthy, String.isEmpty]
  refine ⟨?_, ?_, ?_, ?_⟩ <;> simp [chatHandler, hfalse, ChatResponse.status]

/-- Witness for C10 with a present-but-empty message field. -/
theorem chat_empty_field_rejected_witness :
    (chatHandler
        { embedOutcome := .ok [1], searchOutcome := .ok [],
          genOutcome := .response (some "hi"), cacheOk := true, now := "t0" }
        "sid" "" RedisState.empty).1 =
      .badRequest "Session ID and message are required" ∧
    (chatHandler
        { embedOutcome := .ok [1], searchOutcome := .ok [],
          genOutcome := .response (some "hi"), cacheOk := true, now := "t0" }
        "sid" "" RedisState.empty).1.status = 400 ∧
    (chatHandler
        { embedOutcome := .ok [1], searchOutcome := .ok [],
          genOutcome := .response (some "hi"), cacheOk := true, now := "t0" }
        "sid" "" RedisState.empty).2.1 = RedisState.empty ∧
    (chatHandler
        { embedOutcome := .ok [1], searchOutcome := .ok [],
          genOutcome := .response (some "hi"), cacheOk := true, now := "t0" }
        "sid" "" RedisState.empty).2.2 =
      { embed := 0, search := 0, generate := 0, cache := 0 } :=
  chat_empty_field_rejected _ "sid" "" RedisState.empty (Or.inr rfl)

/-! ## Vector Store Client (src/services/qdrantService.js)

Only the collection-management surface used by the claims is modelled: the
store is its list of collection names, plus a counter of how many
`createCollection` calls have been issued against it. `createCollection`
registers the new name in the store (the external Qdrant contract). -/

/-- Embeds `this.collectionName` of QdrantService. -/
def collectionName : String := "news_articles"

structure QdrantState where
  collections : List String
  createCalls : Nat
deriving Repr, DecidableEq

/-- Embeds `QdrantService.ensureCollection`: list the existing collection names;
if none equals `collectionName` (`collections.some(col => col.name === ...)`),
issue one `createCollection` call, which registers the name. -/
def ensureCollection (s : QdrantState) : QdrantState :=
  let collectionExists := s.collections.any (fun col => col == collectionName)
  if collectionExists then s
  else { collections := s.collections ++ [collectionName],
         createCalls := s.createCalls + 1 }

/-- Calling `ensureCollection` on a state that already has the collection is the
identity: no creation call is issued. -/
theorem ensureCollection_present (s : QdrantState)
    (h : collectionName ∈ s.collections) : ensureCollection s = s := by
  have : s.collections.any (fun col => col == collectionName) = true := by
    simp only [List.any_eq_true, beq_iff_eq]
    exact ⟨collectionName, h, rfl⟩
  simp [ensureCollection, this]

/-- C8: `ensureCollection` is idempotent: it issues a creation call only
when the collection name is absent from the list, so called twice in a row
starting from a state without the collection it performs exactly one
creation call on the first invocation and the second invocation changes
nothing (zero creation calls). -/
theorem ensureCollection_idempotent (s : QdrantState)
    (h : collectionName ∉ s.collections) :
    (ensureCollection s).createCalls = s.createCalls + 1 ∧
    ensureCollection (ensureCollection s) = ensureCollection s := by
  have habs : s.collections.any (fun col => col == collectionName) = false := by
    simp only [List.any_eq_false, beq_iff_eq]
    intro col hcol hceq
    exact h (hceq ▸ hcol)
  constructor
  · simp [ensureCollection, habs]
  · refine ensureCollection_present _ ?_
    simp [ensureCollection, habs]

/-- Witness for C8 from the empty store. -/
theorem ensureCollection_idempotent_witness :
    (ensureCollection ⟨[], 0⟩).createCalls = 0 + 1 ∧
    ensureCollection (ensureCollection ⟨[], 0⟩) = ensureCollection ⟨[], 0⟩ :=
  ensureCollection_idempotent ⟨[], 0⟩ (by decide)

/-! ## Embedding Client (src/services/qdrantService.js, EmbeddingService)

`embedBatch` validates and filters its input before the single outbound
HTTP request. The provider is modelled by `net`, mapping the sent texts to
the returned embedding vectors (the successful-response contract: one
vector per input, in input order). The embedded function also returns the
number of network calls issued, so that the no-network-call part of the
contract is part of the model. Both validation throws happen inside the
`try`, so the surfaced messages carry the catch-block wrapper prefix. -/

/-- The filter predicate of `embedBatch`:
`text => text && text.trim().length > 0`. -/
def validText (text : String) : Bool :=
  truthy text && (jsTrim text).length > 0

/-- Embeds `EmbeddingService.embedBatch`. -/
def embedBatch (net : List String → List (List Int)) (texts : List String) :
    Except String (List (List Int)) × Nat :=
  if texts.length = 0 then
    (.error "Failed to generate batch embeddings: Texts array cannot be empty", 0)
  else
    let validTexts := texts.filter validText
    if validTexts.length = 0 then
      (.error "Failed to generate batch embeddings: No valid texts to embed", 0)
    else
      (.ok (net validTexts), 1)

/-- C5: `embedBatch` fails with an explicit error and zero network calls
whenever its input is the empty array or contains only empty or
whitespace-only strings; in every other case, the empty and
whitespace-only entries are filtered out and exactly one request is sent,
carrying exactly the filtered list. -/
theorem embedBatch_validation (net : List String → List (List Int))
    (texts : List String)
    (hbad : texts = [] ∨ ∀ t ∈ texts, jsTrim t = "") :
    ((embedBatch net texts).1.isOk = false ∧ (embedBatch net texts).2 = 0) ∧
    ∀ (net2 : List String → List (List Int)) (ts : List String),
      (ts.filter validText).length ≠ 0 →
      embedBatch net2 ts = (.ok (net2 (ts.filter validText)), 1) := by
  constructor
  · rcases hbad with h | h
    · subst h
      exact ⟨rfl, rfl⟩
    · by_cases hlen : texts.length = 0
      · simp [embedBatch, hlen, Except.isOk, Except.toBool]
      · have hfilter : texts.filter validText = [] := by
          rw [List.filter_eq_nil_iff]
          intro t ht
          have htrim := h t ht
          simp [validText, htrim]
        simp [embedBatch, hlen, hfilter, Except.isOk, Except.toBool]
  · intro net2 ts hts
    have hlen : ts.length ≠ 0 := by
      intro h0
      rw [List.length_eq_zero] at h0
      subst h0
      simp at hts
    simp [embedBatch, hlen, hts]

/-- Witness for C5: whitespace-only input fails without a network call,
and a mixed input sends exactly the filtered list once. -/
theorem embedBatch_validation_witness :
    ((embedBatch (fun ts => ts.map (fun _ => [1])) ["", "  "]).1.isOk = false ∧
      (embedBatch (fun ts => ts.map (fun _ => [1])) ["", "  "]).2 = 0) ∧
    ∀ (net2 : List String → List (List Int)) (ts : List String),
      (ts.filter validText).length ≠ 0 →
      embedBatch net2 ts = (.ok (net2 (ts.filter validText)), 1) :=
  embedBatch_validation (fun ts => ts.map (fun _ => [1])) ["", "  "]
    (Or.inr (by intro t ht; fin_cases ht <;> rfl))

/-! ## Ingestion Pipeline (src/scripts/ingestNews.js)

The RSS parser is modelled per feed by `outcomes : Nat → Except ...`, the
result of `parser.parseURL` at each attempt number; cheerio text
extraction (`cheerio.load`, element removal, `$.text()`) is the opaque
parameter `extractText`; `now` models `new Date().toISOString()`; the
`setTimeout` sleeps are recorded as requested durations where the claims
mention them. Embedding vectors are carried as `List Int`: the numeric
element type plays no role in any claim. String lengths count characters
where JS counts UTF-16 code units; the texts involved are plain text. -/

structure FeedItem where
  title : Option String
  description : Option String
  summary : Option String
  contentEncoded : Option String
  content : Option String
  link : Option String
  pubDate : Option String
  isoDate : Option String
deriving Repr, DecidableEq

structure Article where
  id : Nat
  title : String
  description : String
  content : String
  link : String
  pubDate : String
  source : String
deriving Repr, DecidableEq, Inhabited

/-- The whitespace-collapsing pass of `cleanHtmlContent`:
`.replace(/\s+/g, ' ')` rewrites each maximal whitespace run to one
space (the following `.replace(/\n+/g, ' ')` is then a no-op since no
newline survives). -/
def collapseWsGo : Bool → List Char → List Char
  | _, [] => []
  | prevWs, c :: rest =>
    if c.isWhitespace then
      if prevWs then collapseWsGo true rest
      else ' ' :: collapseWsGo true rest
    else c :: collapseWsGo false rest

/-- Embeds `NewsIngestion.cleanHtmlContent`: empty (falsy) input short-circuits
to `""`; otherwise cheerio extracts the text (`extractText`), whitespace
runs are collapsed, and the result is trimmed. -/
def cleanHtmlContent (extractText : String → String) (html : String) : String :=
  if !truthy html then ""
  else jsTrim (String.mk (collapseWsGo false (extractText html).data))

/-- Embeds `NewsIngestion.processArticle`: assemble the cleaned fields, combine
title, cleaned description and cleaned body into `combinedText`, truncate
it to 8000 characters plus an appended `"..."` when over the limit, and
assign the current value of the monotonically increasing `articleCounter`
(threaded here as `counter`). -/
def processArticle (extractText : String → String) (now : String)
    (item : FeedItem) (src : String) (counter : Nat) : Article :=
  let title := jsOr item.title ""
  let description := jsOr item.description (jsOr item.summary "")
  let content := jsOr item.contentEncoded (jsOr item.content "")
  let link := jsOr item.link ""
  let pubDate := jsOr item.pubDate (jsOr item.isoDate now)
  let cleanDescription := cleanHtmlContent extractText description
  let cleanContent := cleanHtmlContent extractText content
  let combined1 :=
    if truthy cleanDescription then title ++ "\n\n" ++ cleanDescription else title
  let combined2 :=
    if truthy cleanContent && cleanContent != cleanDescription then
      combined1 ++ "\n\n" ++ cleanContent
    else combined1
  let combinedText :=
    if combined2.length > 8000 then jsSubstring combined2 8000 ++ "..." else combined2
  { id := counter, title := title, description := cleanDescription,
    content := combinedText, link := link, pubDate := pubDate, source := src }

/-- Result of `fetchFeed`: the returned item list, the number of
`parser.parseURL` attempts issued, and the backoff sleeps requested
between consecutive attempts (`setTimeout(..., 2000 * attempt)`). -/
structure FetchResult where
  items : List FeedItem
  attemptsMade : Nat
  waits : List Nat
deriving Repr, DecidableEq

/-- The retry loop of `NewsIngestion.fetchFeed`, `attempt` being the
1-based attempt counter and the second argument the remaining loop
iterations (`retries - attempt + 1`). -/
def fetchFeedGo (outcomes : Nat → Except String (List FeedItem)) (attempt : Nat) :
    Nat → FetchResult
  | 0 => ⟨[], 0, []⟩
  | n + 1 =>
    match outcomes attempt with
    | .ok items => ⟨items, 1, []⟩
    | .error _ =>
      if n = 0 then ⟨[], 1, []⟩
      else
        let r := fetchFeedGo outcomes (attempt + 1) n
        ⟨r.items, r.attemptsMade + 1, 2000 * attempt :: r.waits⟩

/-- Embeds `NewsIngestion.fetchFeed(feedUrl, retries = 2)`: up to `retries`
attempts, a `2000 * attempt` ms sleep between consecutive attempts, and an
empty item list (never an exception) when every attempt fails. -/
def fetchFeed (outcomes : Nat → Except String (List FeedItem)) (retries : Nat) :
    FetchResult :=
  fetchFeedGo outcomes 1 retries

/-- A configured feed: its URL and its per-attempt parse outcomes. -/
structure Feed where
  url : String
  outcomes : Nat → Except String (List FeedItem)

/-- The inner `map` of `fetchAllArticles`, threading `articleCounter`. -/
def processFeedItems (extractText : String → String) (now : String)
    (items : List FeedItem) (src : String) (counter : Nat) :
    List Article × Nat :=
  match items with
  | [] => ([], counter)
  | item :: rest =>
    let a := processArticle extractText now item src counter
    let r := processFeedItems extractText now rest src (counter + 1)
    (a :: r.1, r.2)

/-- The feed loop of `NewsIngestion.fetchAllArticles`: for each feed,
fetch with the default `retries = 2`, process at most the first 10 items
(`items.slice(0, 10)`), and append. The `if (items.length > 0)` guard of
the source is omitted: processing an empty slice adds nothing and leaves
the counter unchanged, so both branches coincide. -/
def fetchAllGo (extractText : String → String) (now : String) :
    List Feed → Nat → List Article
  | [], _ => []
  | f :: rest, counter =>
    let items := (fetchFeed f.outcomes 2).items
    let r := processFeedItems extractText now (items.take 10) f.url counter
    r.1 ++ fetchAllGo extractText now rest r.2

/-- Embeds `NewsIngestion.fetchAllArticles`: run the feed loop starting from
`articleCounter = 1` and cap the total at 50 (`allArticles.slice(0, 50)`). -/
def fetchAllArticles (extractText : String → String) (now : String)
    (feeds : List Feed) : List Article :=
  (fetchAllGo extractText now feeds 1).take 50

theorem processFeedItems_fst_length (extractText : String → String)
    (now : String) (items : List FeedItem) (src : String) (counter : Nat) :
    (processFeedItems extractText now items src counter).1.length = items.length := by
  induction items generalizing counter with
  | nil => rfl
  | cons item rest ih => simp [processFeedItems, ih]

/-- C7: every run of `fetchAllArticles` returns at most 50 articles in
total, and each individual feed contributes at most 10 processed articles
to the collected list. -/
theorem fetchAllArticles_caps (extractText : String → String) (now : String)
    (feeds : List Feed) :
    (fetchAllArticles extractText now feeds).length ≤ 50 ∧
    ∀ (f : Feed) (rest : List Feed) (counter : Nat),
      ∃ (arts : List Article) (counterAfter : Nat),
        fetchAllGo extractText now (f :: rest) counter =
          arts ++ fetchAllGo extractText now rest counterAfter ∧
        arts.length ≤ 10 := by
  constructor
  · exact List.length_take_le 50 _
  · intro f rest counter
    refine ⟨(processFeedItems extractText now
        ((fetchFeed f.outcomes 2).items.take 10) f.url counter).1,
      (processFeedItems extractText now
        ((fetchFeed f.outcomes 2).items.take 10) f.url counter).2, rfl, ?_⟩
    rw [processFeedItems_fst_length]
    exact List.length_take_le 10 _

theorem fetchFeedGo_attempts_le (outcomes : Nat → Except String (List FeedItem)) :
    ∀ (n attempt : Nat), (fetchFeedGo outcomes attempt n).attemptsMade ≤ n := by
  intro n
  induction n with
  | zero => intro attempt; simp [fetchFeedGo]
  | succ n ih =>
    intro attempt
    cases o : outcomes attempt with
    | ok its => simp [fetchFeedGo, o]
    | error e =>
      by_cases hn : n = 0
      · subst hn; simp [fetchFeedGo, o]
      · simp only [fetchFeedGo, o, hn, if_false]
        have := ih (attempt + 1)
        omega

theorem fetchFeed_allFail_two (outcomes : Nat → Except String (List FeedItem))
    (hfail : ∀ a, (outcomes a).toOption = none) :
    fetchFeed outcomes 2 = ⟨[], 2, [2000]⟩ := by
  have h1 := hfail 1
  have h2 := hfail 2
  cases o1 : outcomes 1 with
  | ok its => rw [o1] at h1; simp [Except.toOption] at h1
  | error e1 =>
    cases o2 : outcomes 2 with
    | ok its => rw [o2] at h2; simp [Except.toOption] at h2
    | error e2 => simp [fetchFeed, fetchFeedGo, o1, o2]

theorem fetchAllGo_skips_dead_feed (extractText : String → String) (now : String)
    (outcomes : Nat → Except String (List FeedItem))
    (hfail : ∀ a, (outcomes a).toOption = none) (url : String) :
    ∀ (fs1 fs2 : List Feed) (counter : Nat),
      fetchAllGo extractText now (fs1 ++ ⟨url, outcomes⟩ :: fs2) counter =
        fetchAllGo extractText now (fs1 ++ fs2) counter := by
  intro fs1
  induction fs1 with
  | nil =>
    intro fs2 counter
    simp only [List.nil_append, fetchAllGo, fetchFeed_allFail_two outcomes hfail]
    rfl
  | cons f rest ih =>
    intro fs2 counter
    simp only [List.cons_append, fetchAllGo, List.append_eq]
    rw [ih]

/-- C6: `fetchFeed` makes at most `retries` attempts (the single call site
uses the fixed `retries = 2`), with a linear `2000 * attempt` backoff wait
between consecutive attempts, and returns an empty item list without
raising when every attempt fails (for the fixed bound: exactly 2 attempts
and the single `2000` ms wait); consequently a `fetchAllArticles` run in
which one feed fails on every attempt returns exactly the articles it
would collect over the remaining feeds alone. -/
theorem fetchFeed_bounded_failsafe (outcomes : Nat → Except String (List FeedItem))
    (hfail : ∀ a, (outcomes a).toOption = none) :
    fetchFeed outcomes 2 = ⟨[], 2, [2000]⟩ ∧
    (∀ (oc : Nat → Except String (List FeedItem)) (retries : Nat),
      (fetchFeed oc retries).attemptsMade ≤ retries) ∧
    ∀ (extractText : String → String) (now url : String) (fs1 fs2 : List Feed),
      fetchAllArticles extractText now (fs1 ++ ⟨url, outcomes⟩ :: fs2) =
        fetchAllArticles extractText now (fs1 ++ fs2) := by
  refine ⟨fetchFeed_allFail_two outcomes hfail, ?_, ?_⟩
  · intro oc retries
    exact fetchFeedGo_attempts_le oc retries 1
  · intro extractText now url fs1 fs2
    unfold fetchAllArticles
    rw [fetchAllGo_skips_dead_feed extractText now outcomes hfail url]

/-- Witness for C6: a feed whose parse throws a timeout on every attempt. -/
theorem fetchFeed_bounded_failsafe_witness :
    fetchFeed (fun _ => .error "timeout") 2 = ⟨[], 2, [2000]⟩ ∧
    (∀ (oc : Nat → Except String (List FeedItem)) (retries : Nat),
      (fetchFeed oc retries).attemptsMade ≤ retries) ∧
    ∀ (extractText : String → String) (now url : String) (fs1 fs2 : List Feed),
      fetchAllArticles extractText now
          (fs1 ++ ⟨url, fun _ => .error "timeout"⟩ :: fs2) =
        fetchAllArticles extractText now (fs1 ++ fs2) :=
  fetchFeed_bounded_failsafe (fun _ => .error "timeout") (fun _ => rfl)

/-- The content produced for an item that carries only a title: the
cleaned description and body are empty, so the combined text is the title
itself, subject only to the final truncation step. -/
theorem processArticle_titleOnly_content (extractText : String → String)
    (now src : String) (counter : Nat) (t : String) (ht : truthy t = true) :
    (processArticle extractText now
        { title := some t, description := none, summary := none,
          contentEncoded := none, content := none, link := none,
          pubDate := none, isoDate := none } src counter).content =
      (if t.length > 8000 then jsSubstring t 8000 ++ "..." else t) := by
  have h0 : truthy "" = false := rfl
  simp [processArticle, jsOr, ht, cleanHtmlContent, h0]

/-- An 8001-character title. -/
def bigTitle : String := String.mk (List.replicate 8001 'a')

/-- C4 counterexample: the truncation branch of `processArticle` cuts the
combined text to 8000 characters and then appends the three-character
`"..."`, so for an item whose title alone is 8001 characters long the
produced content is 8003 characters, exceeding the claimed
8000-character bound. -/
theorem processArticle_content_over_8000 :
    (processArticle id "t0"
        { title := some bigTitle, description := none, summary := none,
          contentEncoded := none, content := none, link := none,
          pubDate := none, isoDate := none } "src" 1).content.length = 8003 ∧
    ¬ (processArticle id "t0"
        { title := some bigTitle, description := none, summary := none,
          contentEncoded := none, content := none, link := none,
          pubDate := none, isoDate := none } "src" 1).content.length ≤ 8000 := by
  have hlen : bigTitle.length = 8001 := by
    show (List.replicate 8001 'a').length = 8001
    rw [List.length_replicate]
  have hne : bigTitle ≠ "" := by
    intro h
    have := congrArg String.length h
    rw [hlen] at this
    simp [String.length] at this
  have ht : truthy bigTitle = true := by
    simp only [truthy, Bool.not_eq_true']
    simp only [Bool.eq_false_iff, ne_eq]
    intro h
    exact hne ((String.isEmpty_iff bigTitle).mp h)
  rw [processArticle_titleOnly_content id "t0" "src" 1 bigTitle ht]
  have h8 : bigTitle.length > 8000 := by rw [hlen]; omega
  rw [if_pos h8, String.length_append]
  have hsub : (jsSubstring bigTitle 8000).length = 8000 := by
    show ((List.replicate 8001 'a').take 8000).length = 8000
    rw [List.length_take, List.length_replicate]
    omega
  have hdots : ("..." : String).length = 3 := rfl
  rw [hsub, hdots]
  omega

/-- The final truncation step of `processArticle` (lines 105-107) yields
at most 8003 characters. -/
theorem truncation_le_8003 (s : String) :
    (if s.length > 8000 then jsSubstring s 8000 ++ "..." else s).length ≤ 8003 := by
  by_cases h : s.length > 8000
  · rw [if_pos h, String.length_append]
    have htake : (jsSubstring s 8000).length ≤ 8000 := by
      show (s.data.take 8000).length ≤ 8000
      rw [List.length_take]
      omega
    have hdots : ("..." : String).length = 3 := rfl
    omega
  · rw [if_neg h]
    omega

/-- C4 as amended: for every article produced by `processArticle`, the
content field is at most 8003 characters long: at most the 8000-character
truncation ceiling plus the three-character ellipsis appended when the
combined text exceeds 8000 characters; without truncation it is the
combined text itself, of at most 8000 characters. -/
theorem processArticle_content_le_8003 (extractText : String → String)
    (now : String) (item : FeedItem) (src : String) (counter : Nat) :
    (processArticle extractText now item src counter).content.length ≤ 8003 :=
  truncation_le_8003 _

/-! ### Batch embedding inside `ingestArticles` (ingestNews.js 166-197) -/

structure DocPayload where
  title : String
  description : String
  content : String
  link : String
  pubDate : String
  source : String
  ingestedAt : String
deriving Repr, DecidableEq

/-- An Indexed Document prepared for Qdrant. `vector` is `Option`al
because the loop reads `embeddings[j]`, which is JS `undefined` (`none`)
when the embeddings list is shorter than the batch. -/
structure IndexedDoc where
  id : Nat
  vector : Option (List Int)
  payload : DocPayload
deriving Repr, DecidableEq

/-- The document pushed for `article` with vector `embedding`
(ingestNews.js 180-192); the payload stores the first 1000 characters of
the content and the ingestion timestamp `now`. -/
def mkDoc (now : String) (article : Article) (embedding : Option (List Int)) :
    IndexedDoc :=
  { id := article.id, vector := embedding,
    payload := { title := article.title, description := article.description,
                 content := jsSubstring article.content 1000,
                 link := article.link, pubDate := article.pubDate,
                 source := article.source, ingestedAt := now } }

/-- One iteration of the batch loop of `ingestArticles`: embed the batch
contents with `embedBatch` (the provider, modelled by `embedFn`, returns
one vector per sent text in input order), then for `j` from `0` to
`batch.length - 1` pair `embeddings[j]` with `batch[j]` positionally. On
an `embedBatch` error the batch is skipped (`continue`), contributing no
documents. -/
def ingestBatchDocs (embedFn : String → List Int) (now : String)
    (batch : List Article) : List IndexedDoc :=
  let texts := batch.map (fun article => article.content)
  match (embedBatch (fun ts => ts.map embedFn) texts).1 with
  | .error _ => []
  | .ok embeddings =>
    (List.range batch.length).map (fun j =>
      mkDoc now (batch.getD j default) embeddings[j]?)

/-- C3: in every ingestion batch in which every article content is
non-empty after trimming, the Indexed Document built for the j-th article
of the batch carries the j-th embedding returned by `embedBatch`, which is
the embedding of that article's own content. (The hypothesis is what
rules out the misalignment caused by `embedBatch` dropping
empty entries.) -/
theorem ingestBatch_pairing (embedFn : String → List Int) (now : String)
    (batch : List Article)
    (h : ∀ a ∈ batch, jsTrim a.content ≠ "")
    (j : Nat) (hj : j < batch.length) :
    ∃ a, batch[j]? = some a ∧
      (ingestBatchDocs embedFn now batch)[j]? =
        some (mkDoc now a (some (embedFn a.content))) := by
  have hvalid : ∀ t ∈ batch.map (fun article => article.content), validText t = true := by
    intro t ht
    rw [List.mem_map] at ht
    obtain ⟨a, ha, rfl⟩ := ht
    have htrim := h a ha
    have hne : a.content ≠ "" := by
      intro h0
      exact htrim (by rw [h0]; rfl)
    have hlen : (jsTrim a.content).length ≠ 0 := by
      intro h0
      apply htrim
      have : (jsTrim a.content).data = [] := List.length_eq_zero.mp h0
      show String.mk (jsTrim a.content).data = ""
      rw [this]
    have htruthy : truthy a.content = true := by
      simp only [truthy, Bool.not_eq_true']
      simp only [Bool.eq_false_iff, ne_eq]
      intro hemp
      exact hne ((String.isEmpty_iff a.content).mp hemp)
    simp only [validText, htruthy, Bool.true_and, decide_eq_true_eq]
    omega
  have hfilter : (batch.map (fun article => article.content)).filter validText =
      batch.map (fun article => article.content) :=
    List.filter_eq_self.mpr hvalid
  have hlen0 : (batch.map (fun article => article.content)).length ≠ 0 := by
    rw [List.length_map]
    omega
  have hflen : ((batch.map (fun article => article.content)).filter validText).length ≠ 0 := by
    rw [hfilter]
    exact hlen0
  refine ⟨batch[j], List.getElem?_eq_getElem hj, ?_⟩
  have hbatch : (embedBatch (fun ts => ts.map embedFn)
      (batch.map (fun article => article.content))).1 =
      .ok ((batch.map (fun article => article.content)).map embedFn) := by
    simp only [embedBatch, hlen0, if_false, hfilter, hflen, if_neg]
  simp only [ingestBatchDocs, hbatch]
  rw [List.getElem?_map, List.getElem?_range hj, Option.map_some',
    List.getD_eq_getElem batch default hj,
    List.getElem?_map, List.getElem?_map, List.getElem?_eq_getElem hj]
  rfl

/-- A sample one-article batch for the C3 witness. -/
def sampleArticle : Article :=
  { id := 1, title := "t", description := "d", content := "hello",
    link := "l", pubDate := "p", source := "s" }

/-- Witness for C3 on a singleton batch with non-empty content. -/
theorem ingestBatch_pairing_witness :
    ∃ a, [sampleArticle][0]? = some a ∧
      (ingestBatchDocs (fun _ => [7]) "t0" [sampleArticle])[0]? =
        some (mkDoc "t0" a (some ((fun _ => ([7] : List Int)) a.content))) :=
  ingestBatch_pairing (fun _ => [7]) "t0" [sampleArticle]
    (by intro a ha; fin_cases ha; decide) 0 (by decide)

end RagBackend
